import Mathlib

/-!
# Verification of the spending-tracker import / categorisation core

A shallow embedding, in Lean 4, of the pure core of the spending-tracker
web application (TypeScript): CSV value coercion (`toISO`, `parseNumber`,
`cleanStr`, `fingerprint` from `data.ts`), column guessing and import
commit logic (`norm`, `guessCols`, `validateMapping`, `commitImport` from
`Tracker.tsx`), the category-learning rules (`normKey`,
`suggestCategory`, `onChangeCategory`, `onAdd`), and the category
maintenance operations (`renameCategoryAndMigrate`,
`deleteCategoryIfUnused` from `categories.ts`).

Modelling conventions:
* JavaScript numbers are modelled as exact rationals (`ℚ`); the amounts
  the program handles are short decimals for which float rounding is not
  at issue.  JavaScript 32-bit truncation (`| 0`, `<<`) is modelled with
  explicit arithmetic modulo `2^32` on `ℤ`.
* JavaScript strings are Lean `String`s; `charCodeAt` is the code point
  (`Char.toNat`), which agrees with UTF-16 units on the Basic
  Multilingual Plane, and `toUpperCase`/`toLowerCase` are modelled by
  `Char.toUpper`/`Char.toLower` (exact on ASCII, which is the alphabet
  the program normalises).
* The ECMAScript builtins `Date` and `parseFloat` are not repository
  code; they are modelled explicitly below (`jsDateUTC`, `newDateParse`,
  `jsParseFloat`) following ECMA-262 (and V8 for the legacy date-string
  grammar), with the runtime timezone taken to be UTC.
* The asynchronous persistence calls (Supabase) are modelled as pure
  state transformers over an explicit database state, with a schedule of
  per-call success/failure outcomes standing for backend behaviour.
-/

/-! ## JavaScript string primitives -/

/-- The whitespace characters recognised by this model of the JavaScript
`\s` class and of `String.prototype.trim` (the ASCII portion, which is
all the program's inputs use). -/
def jsIsWS (c : Char) : Bool :=
  c = ' ' || c = '\t' || c = '\n' || c = '\r' || c = '\x0b' || c = '\x0c'

/-- Core of `replace(/\s+/g, repl)`: each maximal run of whitespace
becomes the single character `repl`.  The flag records whether the
previous character was part of a whitespace run. -/
def collapseWSAux (repl : Char) : Bool → List Char → List Char
  | _, [] => []
  | prevWS, c :: rest =>
    if jsIsWS c then
      if prevWS then collapseWSAux repl true rest
      else repl :: collapseWSAux repl true rest
    else c :: collapseWSAux repl false rest

/-- JavaScript `s.replace(/\s+/g, ' ')`. -/
def collapseWS (s : String) : String := ⟨collapseWSAux ' ' false s.data⟩

/-- Drop trailing characters satisfying `p`. -/
def dropTrailing (p : Char → Bool) (l : List Char) : List Char :=
  (l.reverse.dropWhile p).reverse

/-- JavaScript `s.trim()`. -/
def jsTrim (s : String) : String :=
  ⟨dropTrailing jsIsWS (s.data.dropWhile jsIsWS)⟩

/-- JavaScript `s.toUpperCase()` (ASCII model). -/
def jsUpper (s : String) : String := ⟨s.data.map Char.toUpper⟩

/-- JavaScript `s.toLowerCase()` (ASCII model). -/
def jsLower (s : String) : String := ⟨s.data.map Char.toLower⟩

/-- `data.ts` `cleanStr`:
`(s || '').replace(/\s+/g, ' ').trim().toUpperCase()`. -/
def cleanStr (s : String) : String := jsUpper (jsTrim (collapseWS s))

/-- JavaScript `s.slice(0, 10)`. -/
def jsSlice10 (s : String) : String := ⟨s.data.take 10⟩

/-! ## The 32-bit rolling hash and `fingerprint` -/

/-- Reinterpret an integer as a signed 32-bit value: the unique
representative in `[-2^31, 2^31)` congruent modulo `2^32`.  This is
ECMAScript's `ToInt32`, the effect of `| 0`. -/
def toInt32 (n : ℤ) : ℤ := (n + 2147483648) % 4294967296 - 2147483648

/-- One step of the hash loop in `data.ts` `fingerprint`:
`h = ((h << 5) - h) + c; h |= 0`.  The shift truncates its result to
signed 32 bits; the subtraction and addition are exact (the magnitudes
stay far below 2^53), and `|= 0` truncates again. -/
def jsHashStep (h : ℤ) (c : ℕ) : ℤ := toInt32 (toInt32 (h * 32) - h + c)

/-- The hash loop of `fingerprint`, folded over the string's characters
(`charCodeAt` = code point on the BMP), starting from 0. -/
def jsHashString (s : String) : ℤ := s.data.foldl (fun h c => jsHashStep h c.toNat) 0

/-- Floor of a rational, computed on the numerator and denominator. -/
def ratFloor (q : ℚ) : ℤ := q.num.fdiv q.den

/-- JavaScript `Math.abs`. -/
def jsAbs (q : ℚ) : ℚ := if q < 0 then -q else q

/-- JavaScript `Math.round`: round half towards `+∞`, i.e.
`⌊x + 1/2⌋`. -/
def jsRound (q : ℚ) : ℤ := ratFloor (q + 1/2)

/-- `data.ts` `fingerprint(dateISO, amount, merchant, description)`:
cents = `Math.round(Math.abs(amount) * 100)`;
base = `[dateISO.slice(0,10), String(cents), cleanStr(merchant),
cleanStr(description)].join('|')`; the rolling hash of `base`, rendered
in decimal. -/
def fingerprint (dateISO : String) (amount : ℚ) (merchant description : String) : String :=
  toString (jsHashString
    (jsSlice10 dateISO ++ "|" ++ toString (jsRound (jsAbs amount * 100)) ++ "|" ++
      cleanStr merchant ++ "|" ++ cleanStr description))

/-- Hash step as the specification words it: `hash = hash*31 + charCode`,
truncated to the signed 32-bit range. -/
def specHashStep (h : ℤ) (c : ℕ) : ℤ := toInt32 (31 * h + c)

/-- The specification's rolling hash: fold `specHashStep` from 0. -/
def specHashString (s : String) : ℤ := s.data.foldl (fun h c => specHashStep h c.toNat) 0

/-- The fingerprint as the specification's reference procedure words it:
round `|amount| × 100` to the nearest integer; normalise merchant and
description (collapse whitespace, trim, upper-case); concatenate
`date|cents|MERCHANT|DESCRIPTION`; reduce through the `31*h + c` signed
32-bit rolling hash; render in decimal. -/
def specFingerprint (dateISO : String) (amount : ℚ) (merchant description : String) : String :=
  toString (specHashString
    (dateISO ++ "|" ++ toString (jsRound (jsAbs amount * 100)) ++ "|" ++
      cleanStr merchant ++ "|" ++ cleanStr description))

/-! ## The ECMAScript calendar

`Date.UTC(year, month, day)` accepts arbitrary integer month and day and
normalises them (ECMA-262 `MakeDay`): the month overflows into the year
and the day offsets from the first of the resulting month.  The result
is `NaN` only when the time value leaves the representable range of
±8.64e15 milliseconds (±100000000 days) from the epoch. -/

/-- Days from the epoch 1970-01-01 of the calendar day `(y, m, d)` with
`m ∈ [1,12]` and arbitrary integer `d` (day `d` of month `m`, counting
from 1; values outside the month offset linearly).  Standard civil
calendar arithmetic. -/
def daysFromCivil (y m d : ℤ) : ℤ :=
  let y' := if m ≤ 2 then y - 1 else y
  let era := y'.fdiv 400
  let yoe := y' - era * 400
  let doy := (153 * (if m > 2 then m - 3 else m + 9) + 2).fdiv 5 + d - 1
  let doe := yoe * 365 + yoe.fdiv 4 - yoe.fdiv 100 + doy
  era * 146097 + doe - 719468

/-- Inverse of `daysFromCivil`: the `(year, month, day)` of a day count
from the epoch. -/
def civilFromDays (z : ℤ) : ℤ × ℤ × ℤ :=
  let z' := z + 719468
  let era := z'.fdiv 146097
  let doe := z' - era * 146097
  let yoe := (doe - doe.fdiv 1460 + doe.fdiv 36524 - doe.fdiv 146096).fdiv 365
  let y := yoe + era * 400
  let doy := doe - (365 * yoe + yoe.fdiv 4 - yoe.fdiv 100)
  let mp := (5 * doy + 2).fdiv 153
  let d := doy - (153 * mp + 2).fdiv 5 + 1
  let m := if mp < 10 then mp + 3 else mp - 9
  (if m ≤ 2 then y + 1 else y, m, d)

/-- Modelled from ECMA-262: `Date.UTC(y, m0, d)` with 0-based month
`m0`, including the two-digit-year remap (`0 ≤ y ≤ 99` reads as
`1900 + y`) and month/day normalisation; `none` is the `NaN` result for
time values outside the representable range. -/
def jsDateUTC (y m0 d : ℤ) : Option (ℤ × ℤ × ℤ) :=
  let yr := if 0 ≤ y ∧ y ≤ 99 then 1900 + y else y
  let ym := yr + m0.fdiv 12
  let m := m0 % 12
  let days := daysFromCivil ym (m + 1) d
  if days < -100000000 ∨ 100000000 < days then none
  else some (civilFromDays days)

/-- Left-pad the decimal rendering of `n` with zeros to width `w`. -/
def padNat (w : ℕ) (n : ℕ) : String :=
  ⟨List.replicate (w - (toString n).length) '0'⟩ ++ toString n

/-- The date part of `Date.prototype.toISOString` for the UTC calendar
day `(y, m, d)`: `YYYY-MM-DD`, or the expanded-year form `±YYYYYY-MM-DD`
outside `[0, 9999]`. -/
def isoDatePart (y m d : ℤ) : String :=
  if 0 ≤ y ∧ y ≤ 9999 then
    padNat 4 y.toNat ++ "-" ++ padNat 2 m.toNat ++ "-" ++ padNat 2 d.toNat
  else if 9999 < y then
    "+" ++ padNat 6 y.toNat ++ "-" ++ padNat 2 m.toNat ++ "-" ++ padNat 2 d.toNat
  else
    "-" ++ padNat 6 (-y).toNat ++ "-" ++ padNat 2 m.toNat ++ "-" ++ padNat 2 d.toNat

/-- Leap year of the proleptic Gregorian calendar. -/
def isLeap (y : ℤ) : Bool := (y % 4 = 0 && y % 100 ≠ 0) || y % 400 = 0

/-- Days in month `m` of year `y` (`m ∈ [1,12]`). -/
def daysInMonth (y m : ℤ) : ℤ :=
  if m = 2 then (if isLeap y then 29 else 28)
  else if m = 4 ∨ m = 6 ∨ m = 9 ∨ m = 11 then 30
  else 31

/-- Value of a (little list of) decimal digit characters. -/
def digitsToNat (l : List Char) : ℕ := l.foldl (fun a c => a * 10 + (c.toNat - 48)) 0

/-- Take exactly `n` decimal digits from the front, returning them and
the remainder; `none` if fewer are available. -/
def takeExactDigits : ℕ → List Char → Option (List Char × List Char)
  | 0, l => some ([], l)
  | _ + 1, [] => none
  | n + 1, c :: rest =>
    if c.isDigit then (takeExactDigits n rest).map (fun p => (c :: p.1, p.2)) else none

/-- Modelled from ECMA-262 / V8: `new Date(s)` for the string shapes the
program feeds it, evaluated in a UTC runtime and projected to
`toISOString().slice(0, 10)`.  The model accepts the date-only ISO form
`YYYY-MM-DD` (calendar-validated, per the ECMA date-time string format)
and the V8 legacy form `M/D/YYYY` (month first, month in `[1,12]`, day
in `[1,31]`, normalised); every other string is an invalid date
(`none`), a conservative reading of the engine's parser. -/
def newDateParse (s : String) : Option String :=
  match s.data with
  | [y1, y2, y3, y4, '-', m1, m2, '-', d1, d2] =>
    if [y1, y2, y3, y4, m1, m2, d1, d2].all Char.isDigit then
      let y := (digitsToNat [y1, y2, y3, y4] : ℤ)
      let m := (digitsToNat [m1, m2] : ℤ)
      let d := (digitsToNat [d1, d2] : ℤ)
      if 1 ≤ m ∧ m ≤ 12 ∧ 1 ≤ d ∧ d ≤ daysInMonth y m then some s else none
    else none
  | l =>
    match takeExactDigits 2 l <|> takeExactDigits 1 l with
    | some (as, '/' :: r1) =>
      match takeExactDigits 2 r1 <|> takeExactDigits 1 r1 with
      | some (bs, '/' :: r2) =>
        match takeExactDigits 4 r2 with
        | some (cs, []) =>
          let a := (digitsToNat as : ℤ)
          let b := (digitsToNat bs : ℤ)
          if 1 ≤ a ∧ a ≤ 12 ∧ 1 ≤ b ∧ b ≤ 31 then
            match jsDateUTC (digitsToNat cs) (a - 1) b with
            | some (y, m, d) => some (jsSlice10 (isoDatePart y m d))
            | none => none
          else none
        | _ => none
      | _ => none
    | _ => none

/-- A `/` or `-` separator, the class `[\/\-]` of the date regex. -/
def isSepChar (c : Char) : Bool := c = '/' || c = '-'

/-- Match `(\d{2,4})` greedily at the head (4, then 3, then 2 digits);
the pattern is unanchored, so the remainder is unconstrained. -/
def matchYearDigits (l : List Char) : Option ℕ :=
  match takeExactDigits 4 l <|> takeExactDigits 3 l <|> takeExactDigits 2 l with
  | some (ds, _) => some (digitsToNat ds)
  | none => none

/-- Match `[\/\-](\d{2,4})` at the head. -/
def matchSepYear (l : List Char) : Option ℕ :=
  match l with
  | c :: rest => if isSepChar c then matchYearDigits rest else none
  | [] => none

/-- Match `(\d{1,2})[\/\-](\d{2,4})` at the head, trying the two-digit
reading of the first group before the one-digit reading (greedy with
backtracking). -/
def matchSecondGroup (l : List Char) : Option (ℕ × ℕ) :=
  match takeExactDigits 2 l with
  | some (ds, rest) =>
    match matchSepYear rest with
    | some c => some (digitsToNat ds, c)
    | none =>
      match takeExactDigits 1 l with
      | some (ds', rest') =>
        match matchSepYear rest' with
        | some c => some (digitsToNat ds', c)
        | none => none
      | none => none
  | none =>
    match takeExactDigits 1 l with
    | some (ds', rest') =>
      match matchSepYear rest' with
      | some c => some (digitsToNat ds', c)
      | none => none
    | none => none

/-- Match the whole pattern `(\d{1,2})[\/\-](\d{1,2})[\/\-](\d{2,4})`
at the head, with greedy backtracking on the first group. -/
def matchDateAt (l : List Char) : Option (ℕ × ℕ × ℕ) :=
  match takeExactDigits 2 l with
  | some (ds, c :: rest) =>
    if isSepChar c then
      match matchSecondGroup rest with
      | some (b, c3) => some (digitsToNat ds, b, c3)
      | none =>
        match takeExactDigits 1 l with
        | some (ds', c' :: rest') =>
          if isSepChar c' then
            match matchSecondGroup rest' with
            | some (b, c3) => some (digitsToNat ds', b, c3)
            | none => none
          else none
        | _ => none
    else
      match takeExactDigits 1 l with
      | some (ds', c' :: rest') =>
        if isSepChar c' then
          match matchSecondGroup rest' with
          | some (b, c3) => some (digitsToNat ds', b, c3)
          | none => none
        else none
      | _ => none
  | _ =>
    match takeExactDigits 1 l with
    | some (ds', c' :: rest') =>
      if isSepChar c' then
        match matchSecondGroup rest' with
        | some (b, c3) => some (digitsToNat ds', b, c3)
        | none => none
      else none
    | _ => none

/-- Leftmost match of `/(\d{1,2})[\/\-](\d{1,2})[\/\-](\d{2,4})/` in the
string: `d.match(...)` of `toISO`, yielding the three captured numbers. -/
def regexScan : List Char → Option (ℕ × ℕ × ℕ)
  | [] => none
  | c :: rest => (matchDateAt (c :: rest)).orElse (fun _ => regexScan rest)

/-- The inner `tryParse(dayFirst)` of `data.ts` `toISO`: generic
`new Date` parsing first; on failure, the `D/M/Y`-shaped regex with the
requested day/month order, two-digit years read as `2000 + year`, the
date built with `Date.UTC` and rendered as `toISOString().slice(0,10)`. -/
def tryParseDate (s : String) (dayFirst : Bool) : Option String :=
  match newDateParse s with
  | some iso => some iso
  | none =>
    match regexScan s.data with
    | some (a, b, c) =>
      let dd : ℤ := if dayFirst then a else b
      let mon : ℤ := if dayFirst then b else a
      let yyyy : ℤ := if c < 100 then 2000 + (c : ℤ) else c
      match jsDateUTC yyyy (mon - 1) dd with
      | some (y, m, d) => some (jsSlice10 (isoDatePart y m d))
      | none => none
    | none => none

/-- `data.ts` `toISO` on a string input:
`tryParse(false) || tryParse(true)`. -/
def toISO (s : String) : Option String :=
  (tryParseDate s false).orElse (fun _ => tryParseDate s true)

/-! ## `parseNumber` -/

/-- JavaScript `s.replace(/,/g, '')`. -/
def removeCommas (s : String) : String := ⟨s.data.filter (fun c => c ≠ ',')⟩

/-- The exponent part of a decimal literal, as `parseFloat` reads it: an
`e`/`E`, an optional sign and at least one digit; anything else
contributes no exponent (the longest valid prefix ends before the `e`). -/
def parseExpPart (l : List Char) : ℤ :=
  match l with
  | c :: r =>
    if c = 'e' ∨ c = 'E' then
      match r with
      | '+' :: r2 =>
        if (r2.takeWhile Char.isDigit) ≠ [] then (digitsToNat (r2.takeWhile Char.isDigit) : ℤ)
        else 0
      | '-' :: r2 =>
        if (r2.takeWhile Char.isDigit) ≠ [] then -(digitsToNat (r2.takeWhile Char.isDigit) : ℤ)
        else 0
      | _ =>
        if (r.takeWhile Char.isDigit) ≠ [] then (digitsToNat (r.takeWhile Char.isDigit) : ℤ)
        else 0
    else 0
  | [] => 0

/-- Modelled from ECMA-262: `parseFloat(s)` restricted to finite
results.  Skips leading whitespace, reads an optional sign and the
longest decimal-literal prefix (`Digits [. Digits] [Exponent]` or
`. Digits [Exponent]`); yields `none` when no literal is present or the
value is not finite (`Infinity`), which is what `parseNumber`'s
`isFinite` guard turns into `NaN`. -/
def jsParseFloat (s : String) : Option ℚ :=
  let l := s.data.dropWhile jsIsWS
  let sgn : ℚ := match l with | '-' :: _ => -1 | _ => 1
  let l1 := match l with | '+' :: r => r | '-' :: r => r | _ => l
  match l1 with
  | 'I' :: 'n' :: 'f' :: 'i' :: 'n' :: 'i' :: 't' :: 'y' :: _ => none
  | _ =>
    let ip := l1.takeWhile Char.isDigit
    let r2 := l1.drop ip.length
    let fp := match r2 with
      | '.' :: r => r.takeWhile Char.isDigit
      | _ => []
    let r3 := match r2 with
      | '.' :: r => r.drop (r.takeWhile Char.isDigit).length
      | _ => r2
    if ip = [] ∧ fp = [] then none
    else
      let mant : ℚ := (digitsToNat ip : ℚ) + (digitsToNat fp : ℚ) / 10 ^ fp.length
      some (sgn * mant * 10 ^ parseExpPart r3)

/-- `data.ts` `parseNumber`: `null`/`undefined` give `NaN` (`none`);
otherwise strip commas, trim, `parseFloat`, and reject non-finite
results. -/
def parseNumber (x : Option String) : Option ℚ :=
  match x with
  | none => none
  | some s => jsParseFloat (jsTrim (removeCommas s))

/-! ## Column guessing (`Tracker.tsx` `norm` / `guessCols`) -/

/-- `Tracker.tsx` `norm`:
`(s || '').toLowerCase().replace(/\s+/g, '_').replace(/[^a-z0-9_]/g, '')`. -/
def headerNorm (s : String) : String :=
  ⟨(collapseWSAux '_' false (jsLower s).data).filter
    (fun c => c.isLower || c.isDigit || c == '_')⟩

/-- The column mapping of `Tracker.tsx` (`ImportMapping`): each role is
an optional raw header name. -/
structure ImportMapping where
  date : Option String
  desc : Option String
  amount : Option String
  debit : Option String
  credit : Option String
deriving DecidableEq, Repr

/-- JavaScript truthiness of a `string | undefined` value. -/
def jsTruthy : Option String → Bool
  | none => false
  | some s => s ≠ ""

/-- `guessCols`'s `pick`: the first header (in original column order)
whose normalisation is among the candidate synonyms. -/
def pickHeader (headers : List String) (cands : List String) : Option String :=
  headers.find? (fun h => cands.contains (headerNorm h))

/-- Synonyms for the date column, from `guessCols`. -/
def dateSynonyms : List String :=
  ["date", "transaction_date", "txn_date", "posted_date", "value_date", "effective_date"]

/-- Synonyms for the description column, from `guessCols`. -/
def descSynonyms : List String :=
  ["description", "details", "narration", "memo", "particulars",
   "transaction_details", "transaction_description", "reference"]

/-- Synonyms for the single amount column, from `guessCols`. -/
def amountSynonyms : List String := ["amount", "transaction_amount", "aud", "amt", "value"]

/-- Synonyms for the debit column, from `guessCols`. -/
def debitSynonyms : List String := ["debit", "withdrawal", "debit_amount"]

/-- Synonyms for the credit column, from `guessCols`. -/
def creditSynonyms : List String := ["credit", "deposit", "credit_amount"]

/-- `Tracker.tsx` `guessCols`: assign each role the first header whose
normalisation is in that role's synonym list. -/
def guessCols (headers : List String) : ImportMapping where
  date := pickHeader headers dateSynonyms
  desc := pickHeader headers descSynonyms
  amount := pickHeader headers amountSynonyms
  debit := pickHeader headers debitSynonyms
  credit := pickHeader headers creditSynonyms

/-! ## The import commit (`Tracker.tsx` `validateMapping` / `commitImport`) -/

/-- A parsed CSV/Excel row: header name to cell text; absent keys read
as `undefined` (`none`). -/
abbrev Row := List (String × String)

/-- JavaScript property access `r[k]` on a row object. -/
def rowGet (r : Row) (k : String) : Option String :=
  (r.find? (fun p => p.1 == k)).map (fun p => p.2)

/-- `Tracker.tsx` `validateMapping`, including its exact messages and
check order. -/
def validateMapping (m : ImportMapping) : Option String :=
  if ¬ jsTruthy m.date then some "Please map the Date column."
  else if ¬ (jsTruthy m.amount ∨ (jsTruthy m.debit ∧ jsTruthy m.credit)) then
    some "Please map Amount or Debit and Credit columns."
  else if ¬ jsTruthy m.desc then some "Please map the Description column."
  else none

/-- The amount resolution of the `commitImport` row loop: with debit and
credit both mapped, `max(0, (debit parsed ? max(0,debit) : 0) −
(credit parsed ? max(0,credit) : 0))`; else with an amount column
mapped, `max(0, ∓a)` by the negatives-are-spend flag when `a` parses
(otherwise the amount stays 0); else 0. -/
def resolveAmount (m : ImportMapping) (negSpend : Bool) (r : Row) : ℚ :=
  if jsTruthy m.debit ∧ jsTruthy m.credit then
    let debit := parseNumber (rowGet r (m.debit.getD ""))
    let credit := parseNumber (rowGet r (m.credit.getD ""))
    max 0 ((match debit with | some v => max 0 v | none => 0) -
           (match credit with | some v => max 0 v | none => 0))
  else if jsTruthy m.amount then
    match parseNumber (rowGet r (m.amount.getD "")) with
    | some a => if negSpend then max 0 (-a) else max 0 a
    | none => 0
  else 0

/-- A transaction as built by `commitImport` (the fields the import
determines per row; `person`, `category`, `source` are constants there). -/
structure ImpTxn where
  date : String
  merchant : String
  description : String
  amount : ℚ
  external_id : String
deriving DecidableEq, Repr

/-- `toISO` applied to a possibly-`undefined` cell: `toISO(undefined)`
is `null` (the generic parse is `NaN` and the regex path requires a
string). -/
def toISOOpt : Option String → Option String
  | none => none
  | some s => toISO s

/-- What the `commitImport` loop decides for one row before the insert:
skip for an unparseable date, skip for a non-positive resolved amount,
or a candidate transaction (with merchant = first six space-separated
words of the trimmed description, and the fingerprint as external id). -/
inductive RowCheck where
  | skipDate : RowCheck
  | skipNonPos (dateISO : String) : RowCheck
  | cand (t : ImpTxn) : RowCheck
deriving DecidableEq, Repr

/-- The per-row pipeline of `commitImport` up to the insert. -/
def rowCheck (m : ImportMapping) (negSpend : Bool) (r : Row) : RowCheck :=
  match toISOOpt (rowGet r (m.date.getD "")) with
  | none => .skipDate
  | some dateISO =>
    let desc := jsTrim ((rowGet r (m.desc.getD "")).getD "")
    let merchant := String.intercalate " " ((desc.splitOn " ").take 6)
    let amount := resolveAmount m negSpend r
    if amount > 0 then
      .cand ⟨dateISO, merchant, desc, amount, fingerprint dateISO amount merchant desc⟩
    else .skipNonPos dateISO

/-- Outcome of one `insert` call at the persistence layer. -/
inductive InsertOutcome where
  | ok : InsertOutcome
  | dup : InsertOutcome
  | fail : InsertOutcome
deriving DecidableEq, Repr

/-- `data.ts` `addTransaction` given the persistence outcome: a
uniqueness conflict (error code 23505) returns `null` instead of
raising; any other error is thrown; success returns the row. -/
def addTransactionRes (o : InsertOutcome) (t : ImpTxn) : Except Unit (Option ImpTxn) :=
  match o with
  | .ok => .ok (some t)
  | .dup => .ok none
  | .fail => .error ()

/-- The row loop of `commitImport`: `i` indexes the insert outcome for
each row; the `try { await addTransaction(t) } catch { skipped++ }`
around the insert converts a thrown error into a skip. -/
def importLoop (m : ImportMapping) (negSpend : Bool) (out : ℕ → InsertOutcome) :
    List Row → ℕ → ℕ → ℕ → List ImpTxn → ℕ × ℕ × List ImpTxn
  | [], _, added, skipped, acc => (added, skipped, acc)
  | r :: rs, i, added, skipped, acc =>
    match rowCheck m negSpend r with
    | .skipDate => importLoop m negSpend out rs (i + 1) added (skipped + 1) acc
    | .skipNonPos _ => importLoop m negSpend out rs (i + 1) added (skipped + 1) acc
    | .cand t =>
      match addTransactionRes (out i) t with
      | .ok (some saved) => importLoop m negSpend out rs (i + 1) (added + 1) skipped (acc ++ [saved])
      | .ok none => importLoop m negSpend out rs (i + 1) added (skipped + 1) acc
      | .error _ => importLoop m negSpend out rs (i + 1) added (skipped + 1) acc

/-- Result of `commitImport`: a batch-level validation rejection (no row
processed, counters untouched), or completion with the added and skipped
counts and the inserted transactions. -/
inductive CommitRes where
  | valErr (msg : String) : CommitRes
  | done (added skipped : ℕ) (inserted : List ImpTxn) : CommitRes
deriving DecidableEq, Repr

/-- `Tracker.tsx` `commitImport`: validate the mapping first and reject
the whole batch on failure; otherwise run the row loop from zero
counters. -/
def commitImport (m : ImportMapping) (negSpend : Bool) (rows : List Row)
    (out : ℕ → InsertOutcome) : CommitRes :=
  match validateMapping m with
  | some msg => .valErr msg
  | none =>
    let res := importLoop m negSpend out rows 0 0 0 []
    .done res.1 res.2.1 res.2.2

/-! ## Category learning (`Tracker.tsx` `normKey` / `suggestCategory` /
`onChangeCategory` / `onAdd`) -/

/-- `Tracker.tsx` `normKey`:
`(s || '').toUpperCase().replace(/\s+/g, ' ').trim()`. -/
def normKey (s : String) : String := jsTrim (collapseWS (jsUpper s))

/-- The learned `key → category` rules (a JavaScript object, absent keys
reading as `undefined`). -/
def LearnRules : Type := String → Option String

/-- No learned rules. -/
def emptyRules : LearnRules := fun _ => none

/-- `rules[k]` when truthy, as the lookup in `suggestCategory` uses it:
an absent key or an empty stored string is passed over. -/
def lookupTruthy (rules : LearnRules) (k : String) : Option String :=
  match rules k with
  | some v => if v ≠ "" then some v else none
  | none => none

/-- `Tracker.tsx` `suggestCategory`: normalise merchant and description,
drop empty keys, and return the first key with a truthy rule. -/
def suggestCategory (merchant description : String) (rules : LearnRules) : Option String :=
  (([merchant, description].map normKey).filter (fun k => k ≠ "")).findSome?
    (fun k => lookupTruthy rules k)

/-- The key `onChangeCategory` learns under:
`normKey(saved.merchant || saved.description)`. -/
def storeRuleKey (merchant description : String) : String :=
  normKey (if merchant ≠ "" then merchant else description)

/-- The rules update of `onChangeCategory`:
`{ ...learnRules, [key]: cat }`. -/
def storeRule (rules : LearnRules) (merchant description cat : String) : LearnRules :=
  fun k => if k = storeRuleKey merchant description then some cat else rules k

/-- The category `onAdd` gives the new transaction: start from
`form.category || 'Uncategorized'`, then overwrite with the suggestion
only when it is truthy and no explicit category was chosen
(`if (suggested && !form.category) t.category = suggested`). -/
def chosenCategory (formCategory : Option String) (suggested : Option String) : String :=
  let base := if jsTruthy formCategory then formCategory.getD "" else "Uncategorized"
  match suggested with
  | some s => if s ≠ "" ∧ ¬ jsTruthy formCategory then s else base
  | none => base

/-- The `category` field of the manual-entry form as its `useState`
initialiser sets it in `Tracker.tsx`:
`{ ..., category: 'Uncategorized', ... }`. -/
def initialFormCategory : Option String := some "Uncategorized"

/-- The `category` field after the post-add form reset in `onAdd`:
`category: form.category || 'Uncategorized'`. -/
def resetFormCategory (c : Option String) : Option String :=
  some (if jsTruthy c then c.getD "" else "Uncategorized")

/-- The `category` field after the category select fires:
`setForm(f => ({ ...f, category: e.target.value }))`; the option values
are drawn from `categoryNames = ['Uncategorized', ...cats.map(c =>
c.name)]`, all non-empty strings.  These three writes are the only ones
that touch `form.category`. -/
def selectFormCategory (v : String) : Option String := some v

/-! ## The category store (`categories.ts`)

The persistence layer is modelled as an explicit state: category rows
`(id, name)`, transaction rows `(household_id, category)` (the fields
these operations touch), and budget rows `(household_id, category,
amount)`.  Each Supabase call consumes one index of a success schedule
`sched : ℕ → Bool` in program order; a failed call performs no mutation.
An operation returns the final state together with `some msg` when it
throws and `none` when it resolves. -/

/-- The modelled database state. -/
structure CatDB where
  categories : List (String × String)
  txns : List (String × String)
  budgets : List (String × String × ℚ)
deriving DecidableEq, Repr

/-- `update({ name: newName }).eq('id', id)` on `categories`. -/
def catUpdateName (db : CatDB) (id newName : String) : CatDB :=
  { db with categories := db.categories.map (fun p => if p.1 == id then (p.1, newName) else p) }

/-- `update({ category: newName }).eq('household_id', hh).eq('category',
oldName)` on `transactions`. -/
def txnsMigrate (db : CatDB) (hh oldName newName : String) : CatDB :=
  { db with txns :=
      db.txns.map (fun p => if p.1 == hh && p.2 == oldName then (p.1, newName) else p) }

/-- `select('*').eq('household_id', hh).eq('category', cat).maybeSingle()`
on `budgets`: the amount of the matching row, if any. -/
def budgetFind (db : CatDB) (hh cat : String) : Option ℚ :=
  (db.budgets.find? (fun b => b.1 == hh && b.2.1 == cat)).map (fun b => b.2.2)

/-- `upsert({ household_id, category, amount })` on `budgets` (conflict
target: household and category). -/
def budgetUpsert (db : CatDB) (hh cat : String) (amt : ℚ) : CatDB :=
  { db with budgets :=
      if db.budgets.any (fun b => b.1 == hh && b.2.1 == cat) then
        db.budgets.map (fun b => if b.1 == hh && b.2.1 == cat then (b.1, b.2.1, amt) else b)
      else db.budgets ++ [(hh, cat, amt)] }

/-- `delete().eq('household_id', hh).eq('category', cat)` on `budgets`. -/
def budgetDelete (db : CatDB) (hh cat : String) : CatDB :=
  { db with budgets := db.budgets.filter (fun b => ¬ (b.1 == hh && b.2.1 == cat)) }

/-- `categories.ts` `renameCategoryAndMigrate`: update the category row
(error thrown), migrate the transactions (error thrown), read the old
budget row with `maybeSingle()` destructuring only `data` (an error is
ignored and reads as no row), and if a row was found, upsert the new
budget (`upsertBudget` throws on error) and delete the old row with the
delete call's error unchecked. -/
def renameCategoryAndMigrate (hh id oldName newName : String) (db : CatDB)
    (sched : ℕ → Bool) : CatDB × Option String :=
  if ¬ sched 0 then (db, some "backend error") else
  let db1 := catUpdateName db id newName
  if ¬ sched 1 then (db1, some "backend error") else
  let db2 := txnsMigrate db1 hh oldName newName
  let oldBud : Option ℚ := if sched 2 then budgetFind db2 hh oldName else none
  match oldBud with
  | none => (db2, none)
  | some amt =>
    if ¬ sched 3 then (db2, some "backend error") else
    let db3 := budgetUpsert db2 hh newName amt
    let db4 := if sched 4 then budgetDelete db3 hh oldName else db3
    (db4, none)

/-- `categories.ts` `deleteCategoryIfUnused`: count the transactions
referencing the name (backend error thrown; a nonzero count throws
`'Category in use by transactions'`), then the budget rows (likewise,
`'Category in use by budgets'`), and only then delete the category row. -/
def deleteCategoryIfUnused (hh id name : String) (db : CatDB)
    (sched : ℕ → Bool) : CatDB × Option String :=
  if ¬ sched 0 then (db, some "backend error") else
  let tcount := db.txns.countP (fun p => p.1 == hh && p.2 == name)
  if tcount > 0 then (db, some "Category in use by transactions") else
  if ¬ sched 1 then (db, some "backend error") else
  let bcount := db.budgets.countP (fun b => b.1 == hh && b.2.1 == name)
  if bcount > 0 then (db, some "Category in use by budgets") else
  if ¬ sched 2 then (db, some "backend error") else
  ({ db with categories := db.categories.filter (fun p => p.1 != id) }, none)

/-! ## Theorems -/

theorem jsHashStep_eq_specHashStep (h : ℤ) (c : ℕ) : jsHashStep h c = specHashStep h c := by
  unfold jsHashStep specHashStep toInt32
  omega

theorem jsHashString_eq_specHashString (s : String) : jsHashString s = specHashString s := by
  unfold jsHashString specHashString
  rw [show (fun (h : ℤ) (c : Char) => jsHashStep h c.toNat) =
      (fun (h : ℤ) (c : Char) => specHashStep h c.toNat) from
    funext fun h => funext fun c => jsHashStep_eq_specHashStep h c.toNat]

theorem jsSlice10_of_le (s : String) (h : s.length ≤ 10) : jsSlice10 s = s := by
  unfold jsSlice10
  rw [List.take_of_length_le h]

/-- C2.  The fingerprint equals the specification's reference procedure:
the `((h << 5) - h) + c` / `h |= 0` step coincides with `31*h + c`
truncated to the signed 32-bit range, and on any ISO date input (at most
10 characters, which `slice(0,10)` leaves unchanged) the whole
fingerprint — cents from `|amount| × 100` rounded, normalised merchant
and description, `'|'`-joined, hashed, rendered in decimal — equals the
specification's. -/
theorem fingerprint_refines_spec (dateISO : String) (amount : ℚ)
    (merchant description : String) (hlen : dateISO.length ≤ 10) :
    (∀ (h : ℤ) (c : ℕ), jsHashStep h c = specHashStep h c) ∧
    fingerprint dateISO amount merchant description =
      specFingerprint dateISO amount merchant description := by
  refine ⟨fun h c => jsHashStep_eq_specHashStep h c, ?_⟩
  unfold fingerprint specFingerprint
  rw [jsHashString_eq_specHashString, jsSlice10_of_le dateISO hlen]

theorem fingerprint_refines_spec_witness :
    ("2024-01-31" : String).length ≤ 10 ∧
    fingerprint "2024-01-31" (1250/100) "Woolworths " "Card x123" =
      specFingerprint "2024-01-31" (1250/100) "Woolworths " "Card x123" :=
  ⟨by decide,
    (fingerprint_refines_spec "2024-01-31" (1250/100) "Woolworths " "Card x123" (by decide)).2⟩

/-- C3.  The fingerprint is a deterministic function (a Lean `def`) that
depends only on the calendar date, the rounded absolute cents, and the
normalised (whitespace-collapsed, trimmed, upper-cased) merchant and
description: inputs agreeing on those agree on the fingerprint. -/
theorem fingerprint_normalization_invariant (dateISO : String) (a1 a2 : ℚ)
    (m1 m2 d1 d2 : String)
    (hc : jsRound (jsAbs a1 * 100) = jsRound (jsAbs a2 * 100))
    (hm : cleanStr m1 = cleanStr m2) (hd : cleanStr d1 = cleanStr d2) :
    fingerprint dateISO a1 m1 d1 = fingerprint dateISO a2 m2 d2 := by
  unfold fingerprint
  rw [hc, hm, hd]

theorem fingerprint_normalization_invariant_witness :
    jsRound (jsAbs 5 * 100) = jsRound (jsAbs (499999/100000) * 100) ∧
    cleanStr "Woolworths " = cleanStr "WOOLWORTHS" ∧
    fingerprint "2024-01-31" 5 "Woolworths " "card  x" =
      fingerprint "2024-01-31" (499999/100000) "WOOLWORTHS" "CARD X" :=
  ⟨by with_unfolding_all rfl, by decide,
    fingerprint_normalization_invariant "2024-01-31" 5 (499999/100000)
      "Woolworths " "WOOLWORTHS" "card  x" "CARD X"
      (by with_unfolding_all rfl) (by decide) (by decide)⟩

/-- C1.  Evaluation of the date coercer at the claim's own examples: the
code tries the month-first reading before the day-first one, and
`Date.UTC` normalises an out-of-range month instead of rejecting it, so
`"31/01/2024"` is coerced by the month-first attempt to `"2026-07-01"`
(month 31 rolls two years and seven months forward) rather than the
day-first `"2024-01-31"` the specification states; `"01/31/2024"` and
`"not-a-date"` behave as stated. -/
theorem toISO_eval_examples :
    toISO "31/01/2024" = some "2026-07-01" ∧
    toISO "01/31/2024" = some "2024-01-31" ∧
    toISO "not-a-date" = none :=
  ⟨rfl, rfl, rfl⟩

/-- C10.  Column guessing: each role's pick is characterised as the
first header in original column order whose normalisation lies in the
role's synonym set (`some` exactly when such a header exists, with no
earlier header matching; `none` exactly when none matches — the mapper
never fails), and on `["Txn Date", "Narration", "Debit", "Credit"]` the
guess maps date, description, debit and credit to those headers and
leaves amount unset. -/
theorem guessCols_first_match :
    (∀ (headers cands : List String) (h : String),
        (pickHeader headers cands = some h ↔
          cands.contains (headerNorm h) = true ∧
            ∃ pre post, headers = pre ++ h :: post ∧
              ∀ x ∈ pre, cands.contains (headerNorm x) = false) ∧
        (pickHeader headers cands = none ↔
          ∀ x ∈ headers, cands.contains (headerNorm x) = false)) ∧
    guessCols ["Txn Date", "Narration", "Debit", "Credit"] =
      { date := some "Txn Date", desc := some "Narration", amount := none,
        debit := some "Debit", credit := some "Credit" } := by
  constructor
  · intro headers cands h
    constructor
    · rw [pickHeader, List.find?_eq_some]
      simp
    · rw [pickHeader, List.find?_eq_none]
      simp
  · decide

/-- C9.  Batch-level mapping validation: the mapping passes validation
exactly when the date column is set, the description column is set, and
either the single amount column is set or both debit and credit are;
and whenever validation fails, `commitImport` returns the validation
error for every row list and insert-outcome schedule — no row is
processed and the counters stay untouched. -/
theorem validateMapping_gates_commit :
    (∀ m : ImportMapping,
        validateMapping m = none ↔
          (jsTruthy m.date ∧ jsTruthy m.desc ∧
            (jsTruthy m.amount ∨ (jsTruthy m.debit ∧ jsTruthy m.credit)))) ∧
    (∀ (m : ImportMapping) (neg : Bool) (rows : List Row)
        (out : ℕ → InsertOutcome) (msg : String),
        validateMapping m = some msg →
          commitImport m neg rows out = CommitRes.valErr msg) := by
  constructor
  · intro m
    unfold validateMapping
    by_cases h1 : jsTruthy m.date <;> by_cases h2 : jsTruthy m.desc <;>
      by_cases h3 : jsTruthy m.amount ∨ (jsTruthy m.debit ∧ jsTruthy m.credit) <;>
      simp [h1, h2, h3]
  · intro m neg rows out msg hv
    unfold commitImport
    rw [hv]

theorem validateMapping_gates_commit_witness :
    validateMapping ⟨none, some "Narration", some "Amount", none, none⟩ =
      some "Please map the Date column." ∧
    commitImport ⟨none, some "Narration", some "Amount", none, none⟩ true
      [[("Amount", "12.50")]] (fun _ => InsertOutcome.ok) =
      CommitRes.valErr "Please map the Date column." :=
  ⟨by decide,
    validateMapping_gates_commit.2 ⟨none, some "Narration", some "Amount", none, none⟩
      true [[("Amount", "12.50")]] (fun _ => InsertOutcome.ok)
      "Please map the Date column." (by decide)⟩

theorem importLoop_all_skip (m : ImportMapping) (neg : Bool) (out : ℕ → InsertOutcome) :
    ∀ (rows : List Row), (∀ r ∈ rows, ∀ t, rowCheck m neg r ≠ RowCheck.cand t) →
    ∀ (i a s : ℕ) (acc : List ImpTxn),
      importLoop m neg out rows i a s acc = (a, s + rows.length, acc) := by
  intro rows
  induction rows with
  | nil => intro _ i a s acc; simp [importLoop]
  | cons r rs ih =>
    intro hall i a s acc
    have hr := hall r (List.mem_cons_self r rs)
    have hrs : ∀ r' ∈ rs, ∀ t, rowCheck m neg r' ≠ RowCheck.cand t :=
      fun r' hm => hall r' (List.mem_cons_of_mem r hm)
    cases hc : rowCheck m neg r with
    | skipDate =>
      rw [importLoop, hc, ih hrs, List.length_cons,
        show s + 1 + rs.length = s + (rs.length + 1) from by omega]
    | skipNonPos d =>
      rw [importLoop, hc, ih hrs, List.length_cons,
        show s + 1 + rs.length = s + (rs.length + 1) from by omega]
    | cand t => exact absurd hc (hr t)

theorem importLoop_spec (m : ImportMapping) (neg : Bool) (out : ℕ → InsertOutcome) :
    ∀ (rows : List Row) (i a s : ℕ) (acc : List ImpTxn),
      ∃ a' s' ins, importLoop m neg out rows i a s acc = (a + a', s + s', acc ++ ins) ∧
        a' + s' = rows.length ∧ ins.length = a' := by
  intro rows
  induction rows with
  | nil => intro i a s acc; exact ⟨0, 0, [], by simp [importLoop], by simp, rfl⟩
  | cons r rs ih =>
    intro i a s acc
    cases hc : rowCheck m neg r with
    | skipDate =>
      obtain ⟨a', s', ins, heq, hsum, hlen⟩ := ih (i + 1) a (s + 1) acc
      exact ⟨a', s' + 1, ins, by rw [importLoop, hc, heq]; ring_nf,
        by simp [List.length_cons]; omega, hlen⟩
    | skipNonPos d =>
      obtain ⟨a', s', ins, heq, hsum, hlen⟩ := ih (i + 1) a (s + 1) acc
      exact ⟨a', s' + 1, ins, by rw [importLoop, hc, heq]; ring_nf,
        by simp [List.length_cons]; omega, hlen⟩
    | cand t =>
      cases ho : out i with
      | ok =>
        obtain ⟨a', s', ins, heq, hsum, hlen⟩ := ih (i + 1) (a + 1) s (acc ++ [t])
        refine ⟨a' + 1, s', t :: ins, ?_, by simp [List.length_cons]; omega,
          by simp [hlen]⟩
        rw [importLoop, hc]
        simp only [addTransactionRes, ho, heq, List.append_assoc, List.singleton_append]
        ring_nf
      | dup =>
        obtain ⟨a', s', ins, heq, hsum, hlen⟩ := ih (i + 1) a (s + 1) acc
        refine ⟨a', s' + 1, ins, ?_, by simp [List.length_cons]; omega, hlen⟩
        rw [importLoop, hc]
        simp only [addTransactionRes, ho, heq]
        ring_nf
      | fail =>
        obtain ⟨a', s', ins, heq, hsum, hlen⟩ := ih (i + 1) a (s + 1) acc
        refine ⟨a', s' + 1, ins, ?_, by simp [List.length_cons]; omega, hlen⟩
        rw [importLoop, hc]
        simp only [addTransactionRes, ho, heq]
        ring_nf

/-- C4.  Amount resolution: with debit and credit both mapped the
resolved amount is `max 0 (max 0 debit − max 0 credit)` with an
unparseable side contributing 0; with only the single amount column
mapped and parsing to `a`, it is `max 0 (−a)` when negatives-are-spend
is on and `max 0 a` when off; and a batch whose every row resolves to a
non-positive amount (or an unparseable date) completes with every row
skipped, nothing inserted, and no error. -/
theorem resolveAmount_spec :
    (∀ (m : ImportMapping) (neg : Bool) (r : Row),
        jsTruthy m.debit → jsTruthy m.credit →
        resolveAmount m neg r =
          max 0 (max 0 ((parseNumber (rowGet r (m.debit.getD ""))).getD 0) -
                 max 0 ((parseNumber (rowGet r (m.credit.getD ""))).getD 0))) ∧
    (∀ (m : ImportMapping) (neg : Bool) (r : Row) (a : ℚ),
        ¬ (jsTruthy m.debit ∧ jsTruthy m.credit) → jsTruthy m.amount →
        parseNumber (rowGet r (m.amount.getD "")) = some a →
        resolveAmount m neg r = if neg then max 0 (-a) else max 0 a) ∧
    (∀ (m : ImportMapping) (neg : Bool) (rows : List Row) (out : ℕ → InsertOutcome),
        validateMapping m = none →
        (∀ r ∈ rows, resolveAmount m neg r ≤ 0) →
        commitImport m neg rows out = CommitRes.done 0 rows.length []) := by
  refine ⟨?_, ?_, ?_⟩
  · intro m neg r hd hc
    unfold resolveAmount
    rw [if_pos ⟨hd, hc⟩]
    rcases parseNumber (rowGet r (m.debit.getD "")) with _ | v <;>
      rcases parseNumber (rowGet r (m.credit.getD "")) with _ | w <;> simp
  · intro m neg r a hnd ha hp
    unfold resolveAmount
    rw [if_neg hnd, if_pos ha, hp]
  · intro m neg rows out hv hnp
    unfold commitImport
    rw [hv]
    have hskip : ∀ r ∈ rows, ∀ t, rowCheck m neg r ≠ RowCheck.cand t := by
      intro r hr t
      unfold rowCheck
      rcases toISOOpt (rowGet r (m.date.getD "")) with _ | d
      · simp
      · simp only
        rw [if_neg (by exact not_lt.mpr (hnp r hr))]
        simp
    rw [importLoop_all_skip m neg out rows hskip 0 0 0 []]
    simp

theorem resolveAmount_spec_witness :
    jsTruthy (ImportMapping.debit ⟨some "Date", some "Narration", none, some "Debit", some "Credit"⟩) ∧
    resolveAmount ⟨some "Date", some "Narration", none, some "Debit", some "Credit"⟩ true
        [("Debit", "45.00"), ("Credit", "10")] =
      max 0 (max 0 ((parseNumber (rowGet [("Debit", "45.00"), ("Credit", "10")] "Debit")).getD 0) -
             max 0 ((parseNumber (rowGet [("Debit", "45.00"), ("Credit", "10")] "Credit")).getD 0)) :=
  ⟨by decide,
    resolveAmount_spec.1 ⟨some "Date", some "Narration", none, some "Debit", some "Credit"⟩
      true [("Debit", "45.00"), ("Credit", "10")] (by decide) (by decide)⟩

/-- C5.  Duplicate handling during import: an insert that signals a
uniqueness conflict on the external identifier (code 23505) makes
`addTransaction` return `null` rather than raise; any other insert
failure raises, but the per-row catch in the loop converts it to a skip;
consequently, for every valid mapping, row list and outcome schedule
the import completes with every row accounted as added or skipped — no
per-row insert outcome escapes the loop as an error. -/
theorem import_duplicates_skipped :
    (∀ t : ImpTxn, addTransactionRes InsertOutcome.dup t = Except.ok none) ∧
    (∀ t : ImpTxn, addTransactionRes InsertOutcome.fail t = Except.error ()) ∧
    (∀ (m : ImportMapping) (neg : Bool) (rows : List Row) (out : ℕ → InsertOutcome),
        validateMapping m = none →
        ∃ added skipped ins,
          commitImport m neg rows out = CommitRes.done added skipped ins ∧
          added + skipped = rows.length ∧ ins.length = added) := by
  refine ⟨fun t => rfl, fun t => rfl, ?_⟩
  intro m neg rows out hv
  obtain ⟨a', s', ins, heq, hsum, hlen⟩ := importLoop_spec m neg out rows 0 0 0 []
  refine ⟨a', s', ins, ?_, hsum, hlen⟩
  unfold commitImport
  rw [hv]
  simp [heq]

theorem import_duplicates_skipped_witness :
    validateMapping ⟨some "Date", some "Narration", some "Amount", none, none⟩ = none ∧
    (∃ added skipped ins,
      commitImport ⟨some "Date", some "Narration", some "Amount", none, none⟩ false
          [[("Date", "2024-01-05"), ("Narration", "coffee"), ("Amount", "45")],
           [("Date", "2024-01-05"), ("Narration", "coffee"), ("Amount", "45")],
           [("Date", "2024-01-05"), ("Narration", "coffee"), ("Amount", "45")]]
          (fun i => if i = 0 then InsertOutcome.dup else
            if i = 1 then InsertOutcome.ok else InsertOutcome.fail) =
        CommitRes.done added skipped ins ∧ added + skipped = 3 ∧ ins.length = added) :=
  ⟨by decide,
    import_duplicates_skipped.2.2 ⟨some "Date", some "Narration", some "Amount", none, none⟩
      false
      [[("Date", "2024-01-05"), ("Narration", "coffee"), ("Amount", "45")],
       [("Date", "2024-01-05"), ("Narration", "coffee"), ("Amount", "45")],
       [("Date", "2024-01-05"), ("Narration", "coffee"), ("Amount", "45")]]
      (fun i => if i = 0 then InsertOutcome.dup else
        if i = 1 then InsertOutcome.ok else InsertOutcome.fail) (by decide)⟩

/-- C6.  The category pre-fill never happens: after an explicit
`"Shell" → "Fuel"` assignment the learner does find `"Fuel"` for a new
`"Shell"` entry, but every value `form.category` can ever hold is truthy
(the initial state is `'Uncategorized'`, the post-add reset is
`form.category || 'Uncategorized'`, and the select only offers non-empty
names), and with a truthy `form.category` the guard
`if (suggested && !form.category)` discards the suggestion; so the new
entry is saved as `"Uncategorized"`, not the `"Fuel"` the claim's
pre-fill scenario states. -/
theorem category_prefill_never_applied :
    suggestCategory "Shell" "station 42"
      (storeRule emptyRules "Shell" "irrelevant" "Fuel") = some "Fuel" ∧
    jsTruthy initialFormCategory = true ∧
    (∀ c : Option String, jsTruthy (resetFormCategory c) = true) ∧
    (∀ v : String, v ≠ "" → jsTruthy (selectFormCategory v) = true) ∧
    (∀ (formCategory suggested : Option String),
        jsTruthy formCategory →
        chosenCategory formCategory suggested = formCategory.getD "") ∧
    chosenCategory initialFormCategory
      (suggestCategory "Shell" "station 42"
        (storeRule emptyRules "Shell" "irrelevant" "Fuel")) = "Uncategorized" := by
  refine ⟨by decide, by decide, ?_, ?_, ?_, by decide⟩
  · intro c
    rcases c with _ | s
    · rfl
    · by_cases hs : s = "" <;> simp [resetFormCategory, jsTruthy, hs]
  · intro v hv
    simp [selectFormCategory, jsTruthy, hv]
  · intro formCategory suggested ht
    unfold chosenCategory
    cases suggested with
    | none => simp [ht]
    | some s => simp [ht]

theorem category_prefill_never_applied_witness :
    ("Groceries" : String) ≠ "" ∧
    jsTruthy (selectFormCategory "Groceries") = true ∧
    jsTruthy (some "Uncategorized") = true ∧
    chosenCategory (some "Uncategorized") (some "Fuel") = "Uncategorized" :=
  ⟨by decide,
    category_prefill_never_applied.2.2.2.1 "Groceries" (by decide),
    by decide,
    category_prefill_never_applied.2.2.2.2.1 (some "Uncategorized") (some "Fuel") (by decide)⟩

/-- C7.  Category rename with a failing final step: on a store holding
category `c1` named `Food`, one `Food` transaction and one `Food` budget
row of amount 100, a schedule on which only the old-budget delete call
fails makes `renameCategoryAndMigrate` resolve without any error
(`none`) while leaving both the old `Food` budget row and the new
`Groceries` row behind — the partial failure is silently swallowed, not
surfaced to the caller as the claim requires. -/
theorem renameCategory_swallows_delete_failure :
    (fun i : ℕ => i != 4) 4 = false ∧
    renameCategoryAndMigrate "h" "c1" "Food" "Groceries"
        ⟨[("c1", "Food")], [("h", "Food")], [("h", "Food", 100)]⟩
        (fun i : ℕ => i != 4) =
      (⟨[("c1", "Groceries")], [("h", "Groceries")],
        [("h", "Food", 100), ("h", "Groceries", 100)]⟩, none) := by
  constructor
  · decide
  · with_unfolding_all rfl

/-- C8.  Category deletion guard: on an all-success schedule,
`deleteCategoryIfUnused` with a nonzero count of referencing
transactions or budget rows throws a "Category in use" error and leaves
the whole store unchanged; with both counts zero it deletes exactly the
category row and nothing else. -/
theorem deleteCategory_guard (hh id name : String) (db : CatDB) (sched : ℕ → Bool)
    (hs : ∀ i, sched i = true) :
    (0 < db.txns.countP (fun p => p.1 == hh && p.2 == name) ∨
      0 < db.budgets.countP (fun b => b.1 == hh && b.2.1 == name) →
      ∃ msg, deleteCategoryIfUnused hh id name db sched = (db, some msg) ∧
        (msg = "Category in use by transactions" ∨ msg = "Category in use by budgets")) ∧
    (db.txns.countP (fun p => p.1 == hh && p.2 == name) = 0 →
      db.budgets.countP (fun b => b.1 == hh && b.2.1 == name) = 0 →
      deleteCategoryIfUnused hh id name db sched =
        ({ db with categories := db.categories.filter (fun p => p.1 != id) }, none)) := by
  unfold deleteCategoryIfUnused
  rw [hs 0, hs 1, hs 2]
  constructor
  · intro hpos
    by_cases ht : 0 < db.txns.countP (fun p => p.1 == hh && p.2 == name)
    · exact ⟨"Category in use by transactions", by simp [ht], Or.inl rfl⟩
    · have hb : 0 < db.budgets.countP (fun b => b.1 == hh && b.2.1 == name) := by
        rcases hpos with h | h
        · exact absurd h ht
        · exact h
      exact ⟨"Category in use by budgets", by simp [ht, hb], Or.inr rfl⟩
  · intro ht hb
    simp [ht, hb]

theorem deleteCategory_guard_witness :
    (∀ i : ℕ, (fun _ : ℕ => true) i = true) ∧
    (∃ msg, deleteCategoryIfUnused "h" "c1" "Food"
        ⟨[("c1", "Food")], [("h", "Food")], []⟩ (fun _ => true) =
      (⟨[("c1", "Food")], [("h", "Food")], []⟩, some msg) ∧
      (msg = "Category in use by transactions" ∨ msg = "Category in use by budgets")) :=
  ⟨fun _ => rfl,
    (deleteCategory_guard "h" "c1" "Food" ⟨[("c1", "Food")], [("h", "Food")], []⟩
      (fun _ => true) (fun _ => rfl)).1 (Or.inl (by decide))⟩

theorem guessCols_first_match_witness :
    (guessCols ["Txn Date", "Narration", "Debit", "Credit"]).amount = none ∧
    (guessCols ["Txn Date", "Narration", "Debit", "Credit"]).date = some "Txn Date" := by
  rw [guessCols_first_match.2]
  exact ⟨rfl, rfl⟩
